import Mathlib

/-!
Verification development for the boba MySQL terminal client.

The definitions below are shallow embeddings of the repository's source:
the pagination loop of the gum/bash interface, the bubbletea TUI model
(`model.Update` and its helpers), and the cobra CLI's query execution and
rendering functions.  Go machine integers are modelled as `Int` (the values
involved stay far from the 64-bit bounds), Go strings as Lean `String`
(byte-length versus char-length coincide on the ASCII data considered),
and Go slices as `List`.
-/

namespace Boba

/-! ## Pagination: the "Scroll Through Results" loop (bash interface)

`scrollNext`, `scrollPrev` and `scrollRefresh` embed the `NAV_CHOICE`
case arms: Next adds LIMIT to OFFSET and, when the sum reaches TOTAL_ROWS,
clamps to TOTAL_ROWS - LIMIT (floored at 0); Prev subtracts LIMIT flooring
at 0; Refresh keeps the offset. -/

/-- Embeds the `➡️ Next` arm: `OFFSET=$((OFFSET + LIMIT))`, then if
`OFFSET -ge TOTAL_ROWS` set `OFFSET=$((TOTAL_ROWS - LIMIT))`, then if
`OFFSET -lt 0` set `OFFSET=0`. -/
def scrollNext (total limit offset : Int) : Int :=
  let o := offset + limit
  if o ≥ total then
    let c := total - limit
    if c < 0 then 0 else c
  else o

/-- Embeds the `⬅️ Previous` arm: `OFFSET=$((OFFSET - LIMIT))`, then if
`OFFSET -lt 0` set `OFFSET=0`. -/
def scrollPrev (limit offset : Int) : Int :=
  let o := offset - limit
  if o < 0 then 0 else o

/-- Embeds the `🔄 Refresh` arm: the offset is unchanged. -/
def scrollRefresh (offset : Int) : Int :=
  offset

/-! ## Pagination: the TUI table browser (`model.Update`, `browsingTable` case)

The Go TUI stores a page number rather than an offset; `left`/`h`
decrement it when positive, `right`/`l` increment it below
`maxPage = (totalRows - 1) / rowsPerPage` (Go integer division truncates
toward zero, i.e. `Int.div`), and `r` refreshes in place. -/

/-- Embeds the `"left", "h"` arm: `if m.currentPage > 0 { m.currentPage-- }`. -/
def browseLeft (page : Int) : Int :=
  if page > 0 then page - 1 else page

/-- The Go expression `(m.totalRows - 1) / m.rowsPerPage` (Go `/` on ints
truncates toward zero, which is `Int.tdiv`). -/
def browseMaxPage (total limit : Int) : Int :=
  Int.tdiv (total - 1) limit

/-- Embeds the `"right", "l"` arm: `maxPage := (m.totalRows - 1) / m.rowsPerPage;
if m.currentPage < maxPage { m.currentPage++ }`. -/
def browseRight (total limit page : Int) : Int :=
  if page < browseMaxPage total limit then page + 1 else page

/-- Embeds the `"r"` arm: refresh leaves the page unchanged. -/
def browseRefresh (page : Int) : Int :=
  page

/-! ## History

Two history implementations exist in the repository.  The TUI
(`model.Update`, enter case) deduplicates against the most recent entry;
the plain interactive shell (`runInteractiveMode` in the cobra CLI)
appends unconditionally. -/

/-- Embeds the TUI append: `if len(m.queryHistory) == 0 ||
m.queryHistory[len(m.queryHistory)-1] != query { m.queryHistory =
append(m.queryHistory, query) }`. -/
def historyAppend (h : List String) (q : String) : List String :=
  if h.isEmpty || h.getLastD "" != q then h ++ [q] else h

/-- Embeds the cobra CLI interactive shell append:
`history = append(history, query)` — unconditional. -/
def interactiveHistoryAppend (h : List String) (q : String) : List String :=
  h ++ [q]

/-- `true` when no two consecutive entries of the list are equal
(the adjacent-dedup invariant of the spec's HistoryLog). -/
def noAdjDup : List String → Bool
  | [] => true
  | [_] => true
  | a :: b :: t => (a != b) && noAdjDup (b :: t)

/-! ## CSV rendering

Three CSV producers exist in the repository: `displayCSV` (cobra CLI
output), `copyAsCSV` (TUI copy menu) and `exportToFile` (TUI file
export). -/

/-- Go `strings.Contains(s, string(c))` for a one-character pattern. -/
def containsChar (s : String) (c : Char) : Bool :=
  s.toList.contains c

/-- Go `strings.ReplaceAll(s, "\"", "\"\"")`: every double quote is
doubled (char-wise model of ReplaceAll with a one-character pattern). -/
def doubleQuotes (s : String) : String :=
  String.mk (s.toList.flatMap (fun c => if c = '"' then ['"', '"'] else [c]))

/-- Embeds the data-cell escaping of `displayCSV` (and of the cobra CLI
`exportResults`): `if strings.Contains(cell, ",") ||
strings.Contains(cell, "\"") { cell = "\"" + strings.ReplaceAll(cell,
"\"", "\"\"") + "\"" }`. -/
def csvEscape (cell : String) : String :=
  if containsChar cell ',' || containsChar cell '"' then
    "\"" ++ doubleQuotes cell ++ "\""
  else cell

/-- Embeds `displayCSV`: the header row is the column names joined by
commas and emitted verbatim; each data row joins its escaped cells by
commas; every line ends in a newline. -/
def displayCSV (columns : List String) (rows : List (List String)) : String :=
  String.intercalate "," columns ++ "\n" ++
    String.join (rows.map (fun row =>
      String.intercalate "," (row.map csvEscape) ++ "\n"))

/-- The field rendering `fmt.Sprintf("\"%s\"", cell)` used by `copyAsCSV`
and `exportToFile`: every field is wrapped in quotes, with no internal
escaping. -/
def goQuoteField (s : String) : String :=
  "\"" ++ s ++ "\""

/-- Embeds `copyAsCSV`: headers and cells are all wrapped in quotes via
`fmt.Sprintf("\"%s\"", …)`, joined by commas, one line per row. -/
def copyAsCSV (cols : List String) (rows : List (List String)) : String :=
  String.intercalate "," (cols.map goQuoteField) ++ "\n" ++
    String.join (rows.map (fun row =>
      String.intercalate "," (row.map goQuoteField) ++ "\n"))

/-- Embeds the CSV payload written by `exportToFile`: identical field
treatment to `copyAsCSV` (quote-wrapped via `fmt.Sprintf("\"%s\"", …)`). -/
def exportFileCSV (cols : List String) (rows : List (List String)) : String :=
  String.intercalate "," (cols.map goQuoteField) ++ "\n" ++
    String.join (rows.map (fun row =>
      String.intercalate "," (row.map goQuoteField) ++ "\n"))

/-- Modelled from the spec: "parsing with a standard CSV reader".  An
RFC 4180 style reader over the character stream: fields are separated by
commas and records by newlines; a double quote opens a quoted field in
which commas and newlines are literal and a doubled quote stands for a
literal quote.  Arguments: in-quotes flag, remaining input, current
field, current record (reversed), finished records (reversed). -/
def csvParseAux : Bool → List Char → String → List String →
    List (List String) → List (List String)
  | _, [], f, fs, rs =>
    if f == "" && fs.isEmpty then rs.reverse
    else ((f :: fs).reverse :: rs).reverse
  | true, '"' :: '"' :: cs, f, fs, rs => csvParseAux true cs (f.push '"') fs rs
  | true, '"' :: cs, f, fs, rs => csvParseAux false cs f fs rs
  | true, c :: cs, f, fs, rs => csvParseAux true cs (f.push c) fs rs
  | false, '"' :: cs, f, fs, rs => csvParseAux true cs f fs rs
  | false, ',' :: cs, f, fs, rs => csvParseAux false cs "" (f :: fs) rs
  | false, '\n' :: cs, f, fs, rs => csvParseAux false cs "" [] ((f :: fs).reverse :: rs)
  | false, c :: cs, f, fs, rs => csvParseAux false cs (f.push c) fs rs

/-- Modelled from the spec: full-document CSV parsing with the standard
reader. -/
def csvParse (s : String) : List (List String) :=
  csvParseAux false s.toList "" [] []

/-! ## Driver values and normalization

The driver hands back dynamic values which the code's type switches
distinguish: nil, `[]byte`, `string`, `int64`, `float64`, `bool`, and a
default arm for anything else.  A `float64` cell is carried as its exact
decimal value m·10⁻ᵉ with e ≤ 6; this is faithful for driver doubles
that are exact short decimals (such as 1.5 or 2.0), where no binary
rounding occurs and Go's `%f` and `%v` formattings are computed exactly
by `goFormatFloatF` and `goFormatFloatV` below.  A value of any other
type (the default arm, e.g. `time.Time`) is carried as its
`fmt.Sprintf("%v", v)` rendering, which is the text both switches print
for it. -/

/-- The decimal digits of `n`, left-padded with zeros to width `w`. -/
def padZeros (n : Nat) (w : Nat) : String :=
  let s := toString n
  String.mk (List.replicate (w - s.length) '0') ++ s

/-- Go `fmt.Sprintf("%f", v)` for a float64 whose exact value is the
decimal m·10⁻ᵉ with e ≤ 6 (e.g. 1.5 = 15·10⁻¹): the value printed with
exactly six digits after the decimal point. -/
def goFormatFloatF (m : Int) (e : Nat) : String :=
  let m6 := m.natAbs * 10 ^ (6 - e)
  (if m < 0 then "-" else "") ++ toString (m6 / 10 ^ 6) ++ "." ++
    padZeros (m6 % 10 ^ 6) 6

/-- Go `fmt.Sprintf("%v", v)` for the same float64 values: the shortest
decimal — trailing fractional zeros are dropped and the decimal point is
omitted for integral values (`%v` of 1.5 is "1.5", of 2.0 is "2"). -/
def goFormatFloatV : Int → Nat → String
  | m, 0 => toString m
  | m, e + 1 =>
    if m % 10 = 0 then goFormatFloatV (m / 10) e
    else (if m < 0 then "-" else "") ++ toString (m.natAbs / 10 ^ (e + 1)) ++ "." ++
      padZeros (m.natAbs % 10 ^ (e + 1)) (e + 1)

/-- A raw cell value as returned by the MySQL driver: SQL NULL, a
`[]byte` payload, a `string`, an `int64`, a `bool`, a `float64`
(as the exact decimal m·10⁻ᵉ), or a value of any other driver type
(carried as its `%v` rendering). -/
inductive MySQLValue where
  | null
  | bytes (s : String)
  | str (s : String)
  | int64 (n : Int)
  | boolean (b : Bool)
  | float64 (m : Int) (e : Nat)
  | other (v : String)
deriving DecidableEq

/-- Embeds the normalization switch of the TUI `execQuery`: `nil` →
`"NULL"`, `[]byte` → `string(v)`, `string` → itself, `int64` →
`fmt.Sprintf("%d", v)` (decimal, with a leading minus for negatives,
which is `toString` on `Int`), `bool` → `fmt.Sprintf("%t", v)`
(`"true"`/`"false"`, which is `toString` on `Bool`), `float64` →
`fmt.Sprintf("%f", v)` (fixed six fractional digits), default →
`fmt.Sprintf("%v", v)`. -/
def normalizeValue : MySQLValue → String
  | .null => "NULL"
  | .bytes s => s
  | .str s => s
  | .int64 n => toString n
  | .boolean b => toString b
  | .float64 m e => goFormatFloatF m e
  | .other v => v

/-- Embeds the normalization switch of the cobra CLI `executeSelectQuery`:
`nil` → `"NULL"`, `[]byte` → `string(v)`, everything else →
`fmt.Sprintf("%v", v)`.  On strings, int64 and bool, `%v` produces the
same text as the TUI switch; on float64 it produces the shortest decimal,
which differs from the TUI's `%f`. -/
def normalizeValueCLI : MySQLValue → String
  | .null => "NULL"
  | .bytes s => s
  | .str s => s
  | .int64 n => toString n
  | .boolean b => toString b
  | .float64 m e => goFormatFloatV m e
  | .other v => v

/-! ## The abstract database capability

The spec's external interface: `Query` yields columns and raw rows,
`Exec` yields an affected-row count and a last-insert id, each of which
the driver may fail to provide. -/

/-- The result of `db.Exec`: `RowsAffected()` and `LastInsertId()` each
either produce an `Int` or fail. -/
structure ExecResult where
  rowsAffected : Except String Int
  lastInsertId : Except String Int

/-- The abstract driver handle: `Query` and `Exec` as total functions
from query text to their (possibly failing) results. -/
structure DBConn where
  runQuery : String → Except String (List String × List (List MySQLValue))
  runExec : String → Except String ExecResult

/-! ## Query execution (cobra CLI) -/

/-- The observable outcome of `executeQuery`: a read result (columns and
normalized rows), a failed query, a write result (affected rows plus the
last insert id when reported), or a write whose affected-row count could
not be fetched. -/
inductive QueryOutcome where
  | readOk (cols : List String) (rows : List (List String))
  | queryFailed (e : String)
  | writeOk (rowsAffected : Int) (lastInsertId : Option Int)
  | writeNoRowCount (e : String)
deriving DecidableEq

/-- Go `unicode.IsSpace` restricted to the ASCII/Latin-1 range
(space, tab, newline, vertical tab, form feed, carriage return, NEL,
no-break space); `strings.TrimSpace` strips exactly these on the query
texts considered. -/
def goIsSpace (c : Char) : Bool :=
  c = ' ' || c = '\t' || c = '\n' || c = '\x0b' || c = '\x0c' || c = '\r' ||
    c = '\u0085' || c = '\u00A0'

/-- Go `strings.TrimSpace`: drop leading and trailing space characters. -/
def goTrimSpace (s : String) : String :=
  String.mk (((s.toList.dropWhile goIsSpace).reverse.dropWhile goIsSpace).reverse)

/-- Go `strings.ToLower` on one character (ASCII range; the classification
keywords are ASCII). -/
def goToLowerChar (c : Char) : Char :=
  if 'A' ≤ c ∧ c ≤ 'Z' then Char.ofNat (c.toNat + 32) else c

/-- Go `strings.ToLower` (ASCII range). -/
def goToLower (s : String) : String :=
  String.mk (s.toList.map goToLowerChar)

/-- Go `strings.HasPrefix s p` (byte prefix; char prefix coincides on
ASCII). -/
def goStartsWith (s p : String) : Bool :=
  p.toList.isPrefixOf s.toList

/-- Embeds `executeSelectQuery`: run the query, and on success normalize
every cell of every row (driver, column-introspection and scan errors are
folded into the driver error of the abstract capability). -/
def executeSelectQuery (db : DBConn) (q : String) : QueryOutcome :=
  match db.runQuery q with
  | .error e => .queryFailed e
  | .ok (cols, rows) => .readOk cols (rows.map (fun r => r.map normalizeValueCLI))

/-- Embeds `executeModifyQuery`: run `Exec`; on success fetch
`RowsAffected()` (reporting a warning outcome when unavailable), then
report the last insert id exactly when `LastInsertId()` succeeds with a
positive value. -/
def executeModifyQuery (db : DBConn) (q : String) : QueryOutcome :=
  match db.runExec q with
  | .error e => .queryFailed e
  | .ok r =>
    match r.rowsAffected with
    | .error e => .writeNoRowCount e
    | .ok n =>
      match r.lastInsertId with
      | .ok id => if 0 < id then .writeOk n (some id) else .writeOk n none
      | .error _ => .writeOk n none

/-- Embeds `executeQuery`: `queryLower := strings.ToLower(strings.TrimSpace(query))`;
dispatch to the select path when it has prefix "select", "show",
"describe" or "desc", and to the modify path otherwise. -/
def executeQuery (db : DBConn) (q : String) : QueryOutcome :=
  let queryLower := goToLower (goTrimSpace q)
  if goStartsWith queryLower "select" || goStartsWith queryLower "show" ||
      goStartsWith queryLower "describe" || goStartsWith queryLower "desc" then
    executeSelectQuery db q
  else
    executeModifyQuery db q

/-- The spec's classification, stated from its words: the query text is
trimmed and lower-cased, and the query is a read iff the result begins
with one of "select", "show", "describe", "desc". -/
def specIsRead (q : String) : Bool :=
  ["select", "show", "describe", "desc"].any
    (fun p => goStartsWith (goToLower (goTrimSpace q)) p)

/-- Embeds the TUI `execQuery`: run the query and on success return the
cell-wise normalized rows together with the column names. -/
def execQuery (db : DBConn) (q : String) :
    Except String (List (List String) × List String) :=
  match db.runQuery q with
  | .error e => .error e
  | .ok (cols, rows) => .ok (rows.map (fun r => r.map normalizeValue), cols)

/-- A concrete driver handle used to witness the execution theorems: every
query returns one column "c" and one row [NULL, -5], every exec reports
3 affected rows and last insert id 7. -/
def dbSample : DBConn where
  runQuery := fun _ => .ok (["c"], [[.null, .int64 (-5)]])
  runExec := fun _ => .ok ⟨.ok 3, .ok 7⟩

/-- A driver handle whose query result is a single float64 cell holding
1.5, used to exhibit the normalization divergence between the TUI and the
CLI. -/
def dbFloat : DBConn where
  runQuery := fun _ => .ok (["f"], [[.float64 15 1]])
  runExec := fun _ => .ok ⟨.ok 0, .ok 0⟩

/-! ## Table rendering (`displayTable`) -/

/-- Embeds the per-row width loop of `displayTable`: `for i, cell := range
row { if i < len(colWidths) && len(cell) > colWidths[i] { colWidths[i] =
len(cell) } }` — widths are raised pairwise to cell lengths, extra cells
are ignored and extra widths are kept. -/
def updateWidths : List Nat → List String → List Nat
  | [], _ => []
  | ws, [] => ws
  | w :: ws, c :: cs => max w c.length :: updateWidths ws cs

/-- Embeds the width computation of `displayTable`: widths start at the
header lengths, the row loop raises them to the cell lengths, then the
fixed padding of 2 is added and the result is capped at 50
(`colWidths[i] += 2; if colWidths[i] > 50 { colWidths[i] = 50 }`). -/
def colWidths (columns : List String) (rows : List (List String)) : List Nat :=
  (rows.foldl updateWidths (columns.map String.length)).map
    (fun w => min (w + 2) 50)

/-- Embeds the cell rendering of `displayTable`'s row loop: `if len(cell)
> 48 { cell = cell[:45] + "..." }` (byte slicing coincides with char
slicing on ASCII cells). -/
def renderCell (cell : String) : String :=
  if cell.length > 48 then cell.take 45 ++ "..." else cell

/-- The longest cell of column `i` over all rows (length 0 for rows with
no cell at `i`). -/
def maxCellLen (rows : List (List String)) (i : Nat) : Nat :=
  rows.foldl (fun a r => max a (r.getD i "").length) 0

/-- The spec's width formula, stated from its words: column width =
max(header length, max over rows of cell length) + padding, capped at the
maximum of 50. -/
def specColWidth (columns : List String) (rows : List (List String)) (i : Nat) : Nat :=
  min (max (columns.getD i "").length (maxCellLen rows i) + 2) 50

/-! ## The TUI session model

The fields of the Go `model` struct that carry session state.  Purely
cosmetic widget state (styles, spinner, list widgets, window size, the
stats timestamp) is omitted; the input widget is represented by its text
value. -/

/-- The session state of the TUI `model`. -/
structure Model where
  input : String
  status : String
  err : Option String
  loading : Bool
  showConnectionForm : Bool
  showMainMenu : Bool
  showHelp : Bool
  showHistory : Bool
  showCopyMenu : Bool
  showTableList : Bool
  browsingTable : Bool
  queryHistory : List String
  currentQuery : Nat
  lastQueryResult : List (List String)
  lastQueryCols : List String
  tableCols : List String
  tableRows : List (List String)
  queryStatsRowCount : Nat
  queryStatsColumnCount : Nat
  queryStatsExecutionTime : Nat
  currentPage : Int
  rowsPerPage : Int
  totalRows : Int
  selectedTable : String

/-- The `queryResultMsg` event: rows, columns, error and execution time
(nanoseconds). -/
structure QueryResultMsg where
  rows : List (List String)
  cols : List String
  err : Option String
  executionTime : Nat

/-- Abbreviated model of Go's `time.Duration` formatting, used only inside
the cosmetic success status text. -/
def durationString (ns : Nat) : String :=
  toString ns ++ "ns"

/-- Embeds the `queryResultMsg` case of `model.Update`: loading stops; on
error only `err` and `status` change; on success the error clears, the
cached result, columns, stats and the result table are replaced, and the
status reports the row count. -/
def updateQueryResult (m : Model) (msg : QueryResultMsg) : Model :=
  let m1 := { m with loading := false }
  match msg.err with
  | some e => { m1 with err := some e, status := "❌ Query execution failed" }
  | none =>
    { m1 with
      err := none
      lastQueryResult := msg.rows
      lastQueryCols := msg.cols
      queryStatsRowCount := msg.rows.length
      queryStatsColumnCount := msg.cols.length
      queryStatsExecutionTime := msg.executionTime
      tableCols := msg.cols
      tableRows := msg.rows
      status := "✅ Query executed successfully! " ++ toString msg.rows.length ++
        " rows returned in " ++ durationString msg.executionTime ++ "." }

/-- Embeds the `"up"` case of `model.Update` (free-query view): with a
non-empty history, move the recall cursor back, wrapping from 0 to the
last index, and set the input to the entry at the new cursor. -/
def handleUpKey (m : Model) : Model :=
  if m.queryHistory.length > 0 then
    let cq := if m.currentQuery > 0 then m.currentQuery - 1
      else m.queryHistory.length - 1
    { m with currentQuery := cq, input := m.queryHistory.getD cq "" }
  else m

/-- Embeds the `"down"` case of `model.Update` (free-query view): with a
non-empty history, move the recall cursor forward, wrapping from the last
index to 0, and set the input to the entry at the new cursor. -/
def handleDownKey (m : Model) : Model :=
  if m.queryHistory.length > 0 then
    let cq := if m.currentQuery < m.queryHistory.length - 1 then m.currentQuery + 1
      else 0
    { m with currentQuery := cq, input := m.queryHistory.getD cq "" }
  else m

/-- A concrete model state used by the witnesses: free-query view, one
history entry, cursor on it, a cached result. -/
def modelSample : Model where
  input := "SELECT 1"
  status := "ok"
  err := none
  loading := true
  showConnectionForm := false
  showMainMenu := false
  showHelp := false
  showHistory := false
  showCopyMenu := false
  showTableList := false
  browsingTable := false
  queryHistory := ["SELECT 1"]
  currentQuery := 0
  lastQueryResult := [["1"]]
  lastQueryCols := ["c"]
  tableCols := ["c"]
  tableRows := [["1"]]
  queryStatsRowCount := 1
  queryStatsColumnCount := 1
  queryStatsExecutionTime := 10
  currentPage := 0
  rowsPerPage := 20
  totalRows := 0
  selectedTable := ""

end Boba

namespace Boba

/-! ## Theorems: pagination -/

/-- Claim C2: starting from total=25, limit=20, offset=0, one Next yields
offset 20 (no clamp since 20 < 25); a second Next computes 40 ≥ 25 and
clamps to total - limit = 5; a Prev from offset 5 yields max(0, 5-20) = 0. -/
theorem scroll_scenario_25_20 :
    scrollNext 25 20 0 = 20 ∧ scrollNext 25 20 20 = 5 ∧ scrollPrev 20 5 = 0 := by
  refine ⟨?_, ?_, ?_⟩ <;> decide

/-- Claim C1 fails on the code: from the valid window total=25, limit=20,
offset=0 (which satisfies 0 ≤ 0 ≤ max(0, total - limit) = 5), a single
Next produces offset 20, violating the claimed bound
offset ≤ max(0, total - limit); the TUI page browser reaches the same
offset 20 = page·limit after one right step. -/
theorem scroll_invariant_counterexample :
    (0 ≤ (0 : Int) ∧ (0 : Int) ≤ max 0 (25 - 20)) ∧
    scrollNext 25 20 0 = 20 ∧ ¬ scrollNext 25 20 0 ≤ max 0 ((25 : Int) - 20) ∧
    browseRight 25 20 0 = 1 ∧ ¬ browseRight 25 20 0 * 20 ≤ max 0 ((25 : Int) - 20) := by
  refine ⟨⟨?_, ?_⟩, ?_, ?_, ?_, ?_⟩ <;> decide

/-- Claim C1 (amended): the navigation steps keep the window inside the
result set, but with the weaker bound 0 ≤ offset ≤ max(0, total - 1)
rather than the claimed offset ≤ max(0, total - limit).  For the bash
loop, Next/Prev/Refresh preserve 0 ≤ offset ≤ max(0, total - 1); for the
TUI browser, left/right/r preserve 0 ≤ page ≤ max(0, (total-1)/limit). -/
theorem scroll_invariant_amended (total limit offset page : Int)
    (hl : 0 < limit) (ho : 0 ≤ offset) (hb : offset ≤ max 0 (total - 1))
    (hp : 0 ≤ page) (hpb : page ≤ max 0 (browseMaxPage total limit)) :
    (0 ≤ scrollNext total limit offset ∧ scrollNext total limit offset ≤ max 0 (total - 1)) ∧
    (0 ≤ scrollPrev limit offset ∧ scrollPrev limit offset ≤ max 0 (total - 1)) ∧
    (0 ≤ scrollRefresh offset ∧ scrollRefresh offset ≤ max 0 (total - 1)) ∧
    (0 ≤ browseLeft page ∧ browseLeft page ≤ max 0 (browseMaxPage total limit)) ∧
    (0 ≤ browseRight total limit page ∧
      browseRight total limit page ≤ max 0 (browseMaxPage total limit)) ∧
    (0 ≤ browseRefresh page ∧ browseRefresh page ≤ max 0 (browseMaxPage total limit)) := by
  rw [le_max_iff] at hb hpb
  refine ⟨⟨?_, ?_⟩, ⟨?_, ?_⟩, ⟨?_, ?_⟩, ⟨?_, ?_⟩, ⟨?_, ?_⟩, ⟨?_, ?_⟩⟩ <;>
    simp only [scrollNext, scrollPrev, scrollRefresh, browseLeft, browseRight,
      browseRefresh, le_max_iff] <;>
    first
      | (split_ifs <;> omega)
      | omega

/-- Witness for `scroll_invariant_amended` at total=25, limit=20,
offset=5, page=1 (browseMaxPage 25 20 = 1). -/
theorem scroll_invariant_amended_witness :
    (0 ≤ scrollNext 25 20 5 ∧ scrollNext 25 20 5 ≤ max 0 (25 - 1)) ∧
    (0 ≤ scrollPrev 20 5 ∧ scrollPrev 20 5 ≤ max 0 (25 - 1)) ∧
    (0 ≤ scrollRefresh 5 ∧ scrollRefresh 5 ≤ max 0 (25 - 1)) ∧
    (0 ≤ browseLeft 1 ∧ browseLeft 1 ≤ max 0 (browseMaxPage 25 20)) ∧
    (0 ≤ browseRight 25 20 1 ∧ browseRight 25 20 1 ≤ max 0 (browseMaxPage 25 20)) ∧
    (0 ≤ browseRefresh 1 ∧ browseRefresh 1 ≤ max 0 (browseMaxPage 25 20)) :=
  scroll_invariant_amended 25 20 5 1 (by decide) (by decide) (by decide)
    (by decide) (by decide)

/-! ## Theorems: history -/

/-- Appending an element that differs from the last entry preserves the
adjacent-dedup invariant. -/
theorem noAdjDup_append : ∀ (h : List String) (q : String),
    noAdjDup h = true → h.getLast? ≠ some q → noAdjDup (h ++ [q]) = true := by
  intro h
  induction h with
  | nil => intro q _ _; simp [noAdjDup]
  | cons a t ih =>
    intro q hd hl
    cases t with
    | nil =>
      simp only [List.getLast?_singleton, ne_eq, Option.some.injEq] at hl
      simp [noAdjDup, hl]
    | cons b t2 =>
      simp only [noAdjDup, Bool.and_eq_true, bne_iff_ne, ne_eq] at hd
      simp only [List.cons_append, noAdjDup, Bool.and_eq_true, bne_iff_ne, ne_eq]
      exact ⟨hd.1, ih q hd.2 (by simpa only [List.getLast?_cons_cons] using hl)⟩

/-- Claim C3 fails on the code: the cobra CLI interactive shell
(`runInteractiveMode`) appends to its history unconditionally, so appending
"A" twice to an empty history stores two consecutive equal entries instead
of treating the second append as a no-op. -/
theorem interactive_history_counterexample :
    interactiveHistoryAppend (interactiveHistoryAppend [] "A") "A" = ["A", "A"] ∧
    noAdjDup (interactiveHistoryAppend (interactiveHistoryAppend [] "A") "A") = false := by
  refine ⟨?_, ?_⟩ <;> decide

/-- Claim C3 (amended): the TUI history append (`model.Update`, enter case)
is adjacent-deduplicating — appending text equal to the most recent entry
is a no-op, otherwise the text is appended, the invariant that no two
consecutive entries are equal is preserved, and appending "A", "A", "B" to
an empty history yields exactly ["A", "B"]; the plain interactive shell's
history, by contrast, appends unconditionally. -/
theorem history_append_spec (h : List String) (q : String)
    (hd : noAdjDup h = true) :
    noAdjDup (historyAppend h q) = true ∧
    (h ≠ [] → h.getLastD "" = q → historyAppend h q = h) ∧
    historyAppend (historyAppend (historyAppend [] "A") "A") "B" = ["A", "B"] := by
  refine ⟨?_, ?_, by decide⟩
  · unfold historyAppend
    split
    · rename_i hc
      cases h with
      | nil => simp [noAdjDup]
      | cons a t =>
        simp only [List.isEmpty_cons, Bool.false_or, bne_iff_ne, ne_eq,
          decide_eq_true_eq] at hc
        refine noAdjDup_append (a :: t) q hd ?_
        intro hsome
        exact hc (by simp [List.getLastD_eq_getLast?, hsome])
    · exact hd
  · intro hne hlast
    unfold historyAppend
    rw [if_neg]
    simp only [Bool.or_eq_true, List.isEmpty_eq_true, bne_iff_ne, ne_eq,
      decide_eq_true_eq, not_or, not_not]
    exact ⟨hne, hlast⟩

/-- Witness for `history_append_spec` at history ["A"] and query "A". -/
theorem history_append_spec_witness :
    noAdjDup ["A"] = true ∧
    (noAdjDup (historyAppend ["A"] "A") = true ∧
      (["A"] ≠ [] → ["A"].getLastD "" = "A" → historyAppend ["A"] "A" = ["A"]) ∧
      historyAppend (historyAppend (historyAppend [] "A") "A") "B" = ["A", "B"]) :=
  ⟨by decide, history_append_spec ["A"] "A" (by decide)⟩

/-! ## Theorems: CSV rendering -/

/-- Claim C6 fails on the code: `copyAsCSV` (and `exportToFile`) wrap
every field in quotes, so the comma-free, quote-free field "x" is emitted
quoted rather than unquoted; and `displayCSV` emits a header field
containing a comma unquoted. -/
theorem csv_quoting_counterexample :
    copyAsCSV ["col"] [["x"]] = "\"col\"\n\"x\"\n" ∧
    (containsChar "x" ',' || containsChar "x" '"') = false ∧
    copyAsCSV ["col"] [["x"]] ≠ "col\nx\n" ∧
    displayCSV ["a,b"] [] = "a,b\n" := by
  refine ⟨?_, ?_, ?_, ?_⟩ <;> decide

/-- Claim C6 (amended): in `displayCSV`, a data-row field is wrapped in
double quotes with each internal quote doubled if and only if it contains
a comma or a double quote, and is emitted unquoted otherwise; header
fields, and every field of `copyAsCSV` and `exportToFile`, are instead
emitted by a fixed rule (headers verbatim; copy/export always
quote-wrapped without doubling). -/
theorem csv_quoting_amended (s u t : String)
    (hs : (containsChar s ',' || containsChar s '"') = true)
    (hu : (containsChar u ',' || containsChar u '"') = false) :
    csvEscape s = "\"" ++ doubleQuotes s ++ "\"" ∧
    csvEscape u = u ∧
    goQuoteField t ≠ t ∧
    (∀ cols rows, exportFileCSV cols rows = copyAsCSV cols rows) := by
  refine ⟨?_, ?_, ?_, fun cols rows => rfl⟩
  · rw [csvEscape, if_pos hs]
  · rw [csvEscape, if_neg (by rw [hu]; exact Bool.false_ne_true)]
  · intro hcontr
    have hlen := congrArg String.length hcontr
    have hone : ("\"" : String).length = 1 := rfl
    simp only [goQuoteField, String.length_append, hone] at hlen
    omega

/-- Witness for `csv_quoting_amended` at s = "a,b", u = "x", t = "x". -/
theorem csv_quoting_amended_witness :
    ((containsChar "a,b" ',' || containsChar "a,b" '"') = true ∧
      (containsChar "x" ',' || containsChar "x" '"') = false) ∧
    (csvEscape "a,b" = "\"" ++ doubleQuotes "a,b" ++ "\"" ∧
      csvEscape "x" = "x" ∧
      goQuoteField "x" ≠ "x" ∧
      (∀ cols rows, exportFileCSV cols rows = copyAsCSV cols rows)) :=
  ⟨⟨by decide, by decide⟩, csv_quoting_amended "a,b" "x" "x" (by decide) (by decide)⟩

/-- Claim C7: rendering columns=["name","val"], rows=[["a,b","5"],
["c\"d","6"]] with `displayCSV` and parsing the result with the standard
CSV reader reproduces the original header and cells exactly. -/
theorem displayCSV_roundtrip :
    csvParse (displayCSV ["name", "val"] [["a,b", "5"], ["c\"d", "6"]]) =
      [["name", "val"], ["a,b", "5"], ["c\"d", "6"]] := by
  decide

/-! ## Theorems: query execution -/

/-- Claim C4: `executeQuery` classifies every query by trimming and
lower-casing its text; when the result begins with select, show, describe
or desc it runs as a read (fetching columns and normalized rows via
`executeSelectQuery`), otherwise as a write via `executeModifyQuery`,
which fetches the affected-row count and reports the last insert id
exactly when it is available and positive. -/
theorem executeQuery_classification (db : DBConn) (q : String) :
    (specIsRead q = true → executeQuery db q = executeSelectQuery db q) ∧
    (specIsRead q = false → executeQuery db q = executeModifyQuery db q) ∧
    (∀ cols rows, specIsRead q = true → db.runQuery q = .ok (cols, rows) →
      executeQuery db q = .readOk cols (rows.map (fun r => r.map normalizeValueCLI))) ∧
    (∀ r n, specIsRead q = false → db.runExec q = .ok r → r.rowsAffected = .ok n →
      ∀ id : Int, (executeQuery db q = .writeOk n (some id) ↔
        r.lastInsertId = .ok id ∧ 0 < id)) := by
  have hcond : specIsRead q = (goStartsWith (goToLower (goTrimSpace q)) "select" ||
      goStartsWith (goToLower (goTrimSpace q)) "show" ||
      goStartsWith (goToLower (goTrimSpace q)) "describe" ||
      goStartsWith (goToLower (goTrimSpace q)) "desc") := by
    simp [specIsRead, Bool.or_assoc]
  have hsel : specIsRead q = true → executeQuery db q = executeSelectQuery db q := by
    intro h
    rw [hcond] at h
    simp [executeQuery, h]
  have hmod : specIsRead q = false → executeQuery db q = executeModifyQuery db q := by
    intro h
    rw [hcond] at h
    simp [executeQuery, h]
  refine ⟨hsel, hmod, ?_, ?_⟩
  · intro cols rows hread hq
    rw [hsel hread]
    simp [executeSelectQuery, hq]
  · intro r n hread hexec hra id
    rw [hmod hread]
    simp only [executeModifyQuery, hexec, hra]
    cases hlid : r.lastInsertId with
    | ok id2 =>
      by_cases hpos : 0 < id2
      · simp only [if_pos hpos, QueryOutcome.writeOk.injEq, Option.some.injEq,
          Except.ok.injEq, true_and]
        constructor
        · intro h
          exact ⟨h, h ▸ hpos⟩
        · intro h
          exact h.1
      · simp only [if_neg hpos, QueryOutcome.writeOk.injEq, Except.ok.injEq, true_and]
        constructor
        · intro h
          exact absurd h (by simp)
        · intro h
          exact absurd (h.1 ▸ h.2) hpos
    | error e =>
      simp only [QueryOutcome.writeOk.injEq, true_and]
      constructor
      · intro h
        exact absurd h (by simp)
      · intro h
        exact absurd h.1 (by simp)

/-- Witness for `executeQuery_classification` on `dbSample`, a read query
" SELECT 1" and a write query "UPDATE t SET x = 1". -/
theorem executeQuery_classification_witness :
    (specIsRead " SELECT 1" = true ∧ specIsRead "UPDATE t SET x = 1" = false) ∧
    executeQuery dbSample " SELECT 1" = executeSelectQuery dbSample " SELECT 1" ∧
    executeQuery dbSample "UPDATE t SET x = 1" =
      executeModifyQuery dbSample "UPDATE t SET x = 1" ∧
    executeQuery dbSample " SELECT 1" = .readOk ["c"] [["NULL", "-5"]] ∧
    (executeQuery dbSample "UPDATE t SET x = 1" = .writeOk 3 (some 7) ↔
      (ExecResult.mk (.ok 3) (.ok 7)).lastInsertId = .ok 7 ∧ (0 : Int) < 7) :=
  ⟨⟨by decide, by decide⟩,
    (executeQuery_classification dbSample " SELECT 1").1 (by decide),
    (executeQuery_classification dbSample "UPDATE t SET x = 1").2.1 (by decide),
    ((executeQuery_classification dbSample " SELECT 1").2.2.1
      ["c"] [[.null, .int64 (-5)]] (by decide) rfl).trans (by decide),
    (executeQuery_classification dbSample "UPDATE t SET x = 1").2.2.2
      ⟨.ok 3, .ok 7⟩ 3 (by decide) rfl rfl 7⟩

/-- Claim C5 fails on the code: the same driver value, the float64 1.5,
is normalized to "1.500000" by the TUI `execQuery` (`fmt.Sprintf("%f",
v)`) but to "1.5" by the cobra CLI `executeSelectQuery` (`%v`), so
normalization is not a single implementation-independent junction, and
the TUI's fixed six-decimal text is not the canonical decimal form of
the value. -/
theorem normalization_float_counterexample :
    normalizeValue (.float64 15 1) = "1.500000" ∧
    normalizeValueCLI (.float64 15 1) = "1.5" ∧
    normalizeValue (.float64 15 1) ≠ normalizeValueCLI (.float64 15 1) ∧
    execQuery dbFloat "SELECT f" = .ok ([["1.500000"]], ["f"]) ∧
    executeSelectQuery dbFloat "SELECT f" = .readOk ["f"] [["1.5"]] := by
  refine ⟨by decide, by decide, by decide, rfl, rfl⟩

/-- Claim C5 (amended): within each implementation, normalization is
applied to every cell of every returned row and is a pure function of the
driver value — `execQuery` returns exactly the cell-wise image of the raw
rows under `normalizeValue`, and `executeSelectQuery` the image under
`normalizeValueCLI` — with NULL mapped to the literal text "NULL", byte
and text payloads to their decoded text, and int64/bool values to their
canonical decimal/boolean text; the two implementations agree on every
non-float64 value, but on float64 cells the TUI renders fixed
six-decimal `%f` text while the CLI renders the shortest decimal `%v`
text, so the normalization is deterministic per implementation yet not
shared between them. -/
theorem execQuery_normalization (db : DBConn) (q : String)
    (cols : List String) (rows : List (List MySQLValue))
    (hq : db.runQuery q = .ok (cols, rows)) :
    execQuery db q = .ok (rows.map (fun r => r.map normalizeValue), cols) ∧
    (∀ i j v, (rows.get? i).bind (fun r => r.get? j) = some v →
      (((rows.map (fun r => r.map normalizeValue)).get? i).bind
        (fun r => r.get? j)) = some (normalizeValue v)) ∧
    normalizeValue .null = "NULL" ∧
    (∀ s, normalizeValue (.bytes s) = s) ∧
    (∀ s, normalizeValue (.str s) = s) ∧
    (∀ n : Int, normalizeValue (.int64 n) = toString n) ∧
    (∀ b : Bool, normalizeValue (.boolean b) = toString b) ∧
    (∀ m e, normalizeValue (.float64 m e) = goFormatFloatF m e) ∧
    (∀ m e, normalizeValueCLI (.float64 m e) = goFormatFloatV m e) ∧
    (∀ v, (∀ m e, v ≠ .float64 m e) → normalizeValueCLI v = normalizeValue v) ∧
    executeSelectQuery db q = .readOk cols (rows.map (fun r => r.map normalizeValueCLI)) := by
  refine ⟨by simp [execQuery, hq], ?_, rfl, fun s => rfl, fun s => rfl,
    fun n => rfl, fun b => rfl, fun m e => rfl, fun m e => rfl, ?_,
    by simp [executeSelectQuery, hq]⟩
  · intro i j v h
    cases hr : rows.get? i with
    | none =>
      rw [hr, Option.none_bind] at h
      exact Option.noConfusion h
    | some r =>
      rw [hr, Option.some_bind] at h
      rw [List.get?_eq_getElem?] at hr h
      simp [List.getElem?_map, hr, h]
  · intro v hv
    cases v with
    | float64 m e => exact absurd rfl (hv m e)
    | null => rfl
    | bytes s => rfl
    | str s => rfl
    | int64 n => rfl
    | boolean b => rfl
    | other w => rfl

/-! ## Theorems: table rendering -/

/-- The width-update loop keeps the number of columns. -/
theorem updateWidths_length (ws : List Nat) (row : List String) :
    (updateWidths ws row).length = ws.length := by
  induction ws generalizing row with
  | nil => simp [updateWidths]
  | cons w ws ih =>
    cases row with
    | nil => rfl
    | cons c cs => simp [updateWidths, ih]

/-- Folding the width-update loop over all rows keeps the number of
columns. -/
theorem foldl_updateWidths_length (rows : List (List String)) (ws : List Nat) :
    (rows.foldl updateWidths ws).length = ws.length := by
  induction rows generalizing ws with
  | nil => rfl
  | cons r rs ih => rw [List.foldl_cons, ih, updateWidths_length]

/-- One width-update step takes the pointwise maximum with the row's cell
lengths. -/
theorem updateWidths_getD (ws : List Nat) (row : List String) (i : Nat)
    (hi : i < ws.length) :
    (updateWidths ws row).getD i 0 = max (ws.getD i 0) (row.getD i "").length := by
  induction ws generalizing row i with
  | nil => simp at hi
  | cons w ws ih =>
    cases row with
    | nil => simp [updateWidths]
    | cons c cs =>
      cases i with
      | zero => simp [updateWidths]
      | succ n =>
        simp only [updateWidths, List.getD_cons_succ]
        exact ih cs n (by simpa using hi)

/-- Folding the column maximum out of the initial accumulator. -/
theorem maxCellLen_out (rs : List (List String)) (a : Nat) (i : Nat) :
    rs.foldl (fun a r => max a (r.getD i "").length) a = max a (maxCellLen rs i) := by
  induction rs generalizing a with
  | nil =>
    show a = max a (maxCellLen [] i)
    rw [show maxCellLen [] i = 0 from rfl, Nat.max_zero]
  | cons r rs ih =>
    show rs.foldl (fun a r => max a (r.getD i "").length)
        (max a (r.getD i "").length) =
      max a (rs.foldl (fun a r => max a (r.getD i "").length)
        (max 0 (r.getD i "").length))
    rw [ih (max a (r.getD i "").length), ih (max 0 (r.getD i "").length),
      Nat.zero_max, Nat.max_assoc]

/-- The longest cell of a column, unfolded one row. -/
theorem maxCellLen_cons (r : List String) (rs : List (List String)) (i : Nat) :
    maxCellLen (r :: rs) i = max (r.getD i "").length (maxCellLen rs i) := by
  show rs.foldl (fun a r => max a (r.getD i "").length)
      (max 0 (r.getD i "").length) =
    max (r.getD i "").length (maxCellLen rs i)
  rw [Nat.zero_max, maxCellLen_out]

/-- The folded widths are the pointwise maximum of the initial widths and
the column maxima. -/
theorem foldl_updateWidths_getD (rows : List (List String)) (ws : List Nat)
    (i : Nat) (hi : i < ws.length) :
    (rows.foldl updateWidths ws).getD i 0 = max (ws.getD i 0) (maxCellLen rows i) := by
  induction rows generalizing ws with
  | nil => simp [maxCellLen]
  | cons r rs ih =>
    rw [List.foldl_cons,
      ih (updateWidths ws r) (by rw [updateWidths_length]; exact hi),
      updateWidths_getD ws r i hi, maxCellLen_cons, Nat.max_assoc]

/-- Claim C8: `displayTable` computes each column's width as max(header
length, maximum cell length in the column) plus the fixed padding 2,
capped at the maximum of 50; any cell longer than the cap is truncated to
its first 45 characters and suffixed with the ellipsis "..."; and for
columns=["id"], rows=[["1"],["22"],["333"]] the width is
max(2,3) + padding = 5. -/
theorem displayTable_widths (columns : List String) (rows : List (List String))
    (i : Nat) (cell : String) (hi : i < columns.length) (hc : 50 < cell.length) :
    (colWidths columns rows).getD i 0 = specColWidth columns rows i ∧
    renderCell cell = cell.take 45 ++ "..." ∧
    colWidths ["id"] [["1"], ["22"], ["333"]] = [5] ∧
    specColWidth ["id"] [["1"], ["22"], ["333"]] 0 = max 2 3 + 2 := by
  refine ⟨?_, ?_, by decide, by decide⟩
  · have hl : i < (rows.foldl updateWidths (columns.map String.length)).length := by
      rw [foldl_updateWidths_length, List.length_map]
      exact hi
    have h1 : (rows.foldl updateWidths (columns.map String.length)).getD i 0 =
        max (columns.getD i "").length (maxCellLen rows i) := by
      rw [foldl_updateWidths_getD rows _ i (by rw [List.length_map]; exact hi)]
      congr 1
      rw [List.getD_eq_getElem?_getD, List.getElem?_map, List.getElem?_eq_getElem hi,
        List.getD_eq_getElem?_getD, List.getElem?_eq_getElem hi]
      rfl
    unfold colWidths specColWidth
    rw [List.getD_eq_getElem?_getD, List.getElem?_map, List.getElem?_eq_getElem hl]
    have h2 : (rows.foldl updateWidths (columns.map String.length))[i] =
        (rows.foldl updateWidths (columns.map String.length)).getD i 0 := by
      rw [List.getD_eq_getElem?_getD, List.getElem?_eq_getElem hl]
      rfl
    simp only [Option.map_some', Option.getD_some, h2, h1]
  · unfold renderCell
    rw [if_pos (by omega)]

/-- Witness for `displayTable_widths` at columns=["id"],
rows=[["1"],["22"],["333"]], i=0 and a 51-character cell. -/
theorem displayTable_widths_witness :
    ((0 : Nat) < (["id"] : List String).length ∧
      50 < ("abcdefghijabcdefghijabcdefghijabcdefghijabcdefghija" : String).length) ∧
    ((colWidths ["id"] [["1"], ["22"], ["333"]]).getD 0 0 =
        specColWidth ["id"] [["1"], ["22"], ["333"]] 0 ∧
      renderCell "abcdefghijabcdefghijabcdefghijabcdefghijabcdefghija" =
        ("abcdefghijabcdefghijabcdefghijabcdefghijabcdefghija" : String).take 45 ++ "..." ∧
      colWidths ["id"] [["1"], ["22"], ["333"]] = [5] ∧
      specColWidth ["id"] [["1"], ["22"], ["333"]] 0 = max 2 3 + 2) :=
  ⟨⟨by decide, by decide⟩,
    displayTable_widths ["id"] [["1"], ["22"], ["333"]] 0
      "abcdefghijabcdefghijabcdefghijabcdefghijabcdefghija" (by decide) (by decide)⟩

/-- Witness for `execQuery_normalization` on `dbSample`. -/
theorem execQuery_normalization_witness :
    execQuery dbSample "SELECT 1" =
      .ok ([[.null, .int64 (-5)]].map (fun r => r.map normalizeValue), ["c"]) ∧
    (∀ i j v, (([[.null, .int64 (-5)]] :
        List (List MySQLValue)).get? i).bind (fun r => r.get? j) = some v →
      ((([[.null, .int64 (-5)]] : List (List MySQLValue)).map
        (fun r => r.map normalizeValue)).get? i).bind
        (fun r => r.get? j) = some (normalizeValue v)) ∧
    normalizeValue .null = "NULL" ∧
    (∀ s, normalizeValue (.bytes s) = s) ∧
    (∀ s, normalizeValue (.str s) = s) ∧
    (∀ n : Int, normalizeValue (.int64 n) = toString n) ∧
    (∀ b : Bool, normalizeValue (.boolean b) = toString b) ∧
    (∀ m e, normalizeValue (.float64 m e) = goFormatFloatF m e) ∧
    (∀ m e, normalizeValueCLI (.float64 m e) = goFormatFloatV m e) ∧
    (∀ v, (∀ m e, v ≠ .float64 m e) → normalizeValueCLI v = normalizeValue v) ∧
    executeSelectQuery dbSample "SELECT 1" =
      .readOk ["c"] ([[.null, .int64 (-5)]].map (fun r => r.map normalizeValueCLI)) :=
  execQuery_normalization dbSample "SELECT 1" ["c"] [[.null, .int64 (-5)]] rfl

/-! ## Theorems: session model -/

/-- Claim C9: when query execution completes with an error, the
`queryResultMsg` branch of `model.Update` changes only the error, status
and loading fields — the input text is kept, no view flag changes, and
the cached last result, columns and table contents are untouched; the
error is stored for inline display and the status reports the failure. -/
theorem updateQueryResult_error (m : Model) (msg : QueryResultMsg) (e : String)
    (he : msg.err = some e) :
    (updateQueryResult m msg).input = m.input ∧
    (updateQueryResult m msg).showConnectionForm = m.showConnectionForm ∧
    (updateQueryResult m msg).showMainMenu = m.showMainMenu ∧
    (updateQueryResult m msg).showHelp = m.showHelp ∧
    (updateQueryResult m msg).showHistory = m.showHistory ∧
    (updateQueryResult m msg).showCopyMenu = m.showCopyMenu ∧
    (updateQueryResult m msg).showTableList = m.showTableList ∧
    (updateQueryResult m msg).browsingTable = m.browsingTable ∧
    (updateQueryResult m msg).queryHistory = m.queryHistory ∧
    (updateQueryResult m msg).currentQuery = m.currentQuery ∧
    (updateQueryResult m msg).lastQueryResult = m.lastQueryResult ∧
    (updateQueryResult m msg).lastQueryCols = m.lastQueryCols ∧
    (updateQueryResult m msg).tableCols = m.tableCols ∧
    (updateQueryResult m msg).tableRows = m.tableRows ∧
    (updateQueryResult m msg).err = some e ∧
    (updateQueryResult m msg).status = "❌ Query execution failed" ∧
    (updateQueryResult m msg).loading = false := by
  simp [updateQueryResult, he]

/-- Witness for `updateQueryResult_error` on `modelSample` and an erroring
message. -/
theorem updateQueryResult_error_witness :
    (updateQueryResult modelSample (QueryResultMsg.mk [] [] (some "boom") 0)).input =
        modelSample.input ∧
    (updateQueryResult modelSample (QueryResultMsg.mk [] [] (some "boom") 0)).showConnectionForm =
        modelSample.showConnectionForm ∧
    (updateQueryResult modelSample (QueryResultMsg.mk [] [] (some "boom") 0)).showMainMenu =
        modelSample.showMainMenu ∧
    (updateQueryResult modelSample (QueryResultMsg.mk [] [] (some "boom") 0)).showHelp =
        modelSample.showHelp ∧
    (updateQueryResult modelSample (QueryResultMsg.mk [] [] (some "boom") 0)).showHistory =
        modelSample.showHistory ∧
    (updateQueryResult modelSample (QueryResultMsg.mk [] [] (some "boom") 0)).showCopyMenu =
        modelSample.showCopyMenu ∧
    (updateQueryResult modelSample (QueryResultMsg.mk [] [] (some "boom") 0)).showTableList =
        modelSample.showTableList ∧
    (updateQueryResult modelSample (QueryResultMsg.mk [] [] (some "boom") 0)).browsingTable =
        modelSample.browsingTable ∧
    (updateQueryResult modelSample (QueryResultMsg.mk [] [] (some "boom") 0)).queryHistory =
        modelSample.queryHistory ∧
    (updateQueryResult modelSample (QueryResultMsg.mk [] [] (some "boom") 0)).currentQuery =
        modelSample.currentQuery ∧
    (updateQueryResult modelSample (QueryResultMsg.mk [] [] (some "boom") 0)).lastQueryResult =
        modelSample.lastQueryResult ∧
    (updateQueryResult modelSample (QueryResultMsg.mk [] [] (some "boom") 0)).lastQueryCols =
        modelSample.lastQueryCols ∧
    (updateQueryResult modelSample (QueryResultMsg.mk [] [] (some "boom") 0)).tableCols =
        modelSample.tableCols ∧
    (updateQueryResult modelSample (QueryResultMsg.mk [] [] (some "boom") 0)).tableRows =
        modelSample.tableRows ∧
    (updateQueryResult modelSample (QueryResultMsg.mk [] [] (some "boom") 0)).err =
        some "boom" ∧
    (updateQueryResult modelSample (QueryResultMsg.mk [] [] (some "boom") 0)).status =
        "❌ Query execution failed" ∧
    (updateQueryResult modelSample (QueryResultMsg.mk [] [] (some "boom") 0)).loading = false :=
  updateQueryResult_error modelSample (QueryResultMsg.mk [] [] (some "boom") 0) "boom" rfl

/-- Claim C10: with a non-empty history and the recall cursor in range,
pressing up at cursor 0 wraps it to the last entry, pressing down at the
last entry wraps it to 0, the cursor stays in range, and both keys set
the input to the history entry at the new cursor. -/
theorem history_recall_wraps (m : Model)
    (hne : 0 < m.queryHistory.length)
    (hcq : m.currentQuery < m.queryHistory.length) :
    (m.currentQuery = 0 →
      (handleUpKey m).currentQuery = m.queryHistory.length - 1) ∧
    (m.currentQuery = m.queryHistory.length - 1 →
      (handleDownKey m).currentQuery = 0) ∧
    (handleUpKey m).currentQuery < m.queryHistory.length ∧
    (handleDownKey m).currentQuery < m.queryHistory.length ∧
    (handleUpKey m).input = m.queryHistory.getD (handleUpKey m).currentQuery "" ∧
    (handleDownKey m).input = m.queryHistory.getD (handleDownKey m).currentQuery "" := by
  have hup1 : (handleUpKey m).currentQuery =
      (if m.currentQuery > 0 then m.currentQuery - 1
        else m.queryHistory.length - 1) := by
    unfold handleUpKey
    rw [if_pos hne]
  have hup2 : (handleUpKey m).input = m.queryHistory.getD
      (if m.currentQuery > 0 then m.currentQuery - 1
        else m.queryHistory.length - 1) "" := by
    unfold handleUpKey
    rw [if_pos hne]
  have hdn1 : (handleDownKey m).currentQuery =
      (if m.currentQuery < m.queryHistory.length - 1 then m.currentQuery + 1
        else 0) := by
    unfold handleDownKey
    rw [if_pos hne]
  have hdn2 : (handleDownKey m).input = m.queryHistory.getD
      (if m.currentQuery < m.queryHistory.length - 1 then m.currentQuery + 1
        else 0) "" := by
    unfold handleDownKey
    rw [if_pos hne]
  refine ⟨?_, ?_, ?_, ?_, ?_, ?_⟩
  · intro h0
    rw [hup1, if_neg (by omega)]
  · intro hlast
    rw [hdn1, if_neg (by omega)]
  · rw [hup1]
    split_ifs <;> omega
  · rw [hdn1]
    split_ifs <;> omega
  · rw [hup2, hup1]
  · rw [hdn2, hdn1]

/-- Witness for `history_recall_wraps` on `modelSample` (one history
entry, cursor 0, which is also the last index). -/
theorem history_recall_wraps_witness :
    (0 < modelSample.queryHistory.length ∧
      modelSample.currentQuery < modelSample.queryHistory.length) ∧
    ((modelSample.currentQuery = 0 →
        (handleUpKey modelSample).currentQuery =
          modelSample.queryHistory.length - 1) ∧
      (modelSample.currentQuery = modelSample.queryHistory.length - 1 →
        (handleDownKey modelSample).currentQuery = 0) ∧
      (handleUpKey modelSample).currentQuery < modelSample.queryHistory.length ∧
      (handleDownKey modelSample).currentQuery < modelSample.queryHistory.length ∧
      (handleUpKey modelSample).input =
        modelSample.queryHistory.getD (handleUpKey modelSample).currentQuery "" ∧
      (handleDownKey modelSample).input =
        modelSample.queryHistory.getD (handleDownKey modelSample).currentQuery "") :=
  ⟨⟨by decide, by decide⟩,
    history_recall_wraps modelSample (by decide) (by decide)⟩

end Boba
